import Mathlib

/-!
Verification of the traversal-and-filter engine of go-scim (crud/traverse.go)
against its natural-language specification.

The repository snapshot contains two versions of pkg/v2/crud/traverse.go.
They share the element strategies and the plain traversal skeleton but differ
in the implicit-add (add-by-equality-filter) mechanism:

  - version A: entry point addByEqualOperatorTraverse; the traversal first
    runs the qualified-elements pass, and composes a new element only when
    that pass found no matching child (isFound flag);
  - version B: entry point addByEqFilterTraverse; when the traverser is in
    add mode and the filter token is Eq, the traversal branches immediately
    into updateValueByEqFilter, which validates the filter shape and
    normalizes the literal.

Both versions are embedded below, in namespaces VA and VB, as executable
functions over an explicit navigator state.  Recursion is bounded by an
explicit fuel argument; when fuel runs out the functions return a sentinel
error and leave the navigator untouched, so every theorem quantifying over
fuel covers every finite execution of the engine.

The property tree, attribute metadata, query AST, navigator and the filter
evaluator are external collaborators of this engine (their code is not part
of the snapshot); they are modelled from the specification, as documented on
each definition.
-/

/-- Modelled from the spec: the value kinds of attribute metadata (section
3, Attribute metadata).  Only the kinds that influence the engine are kept;
the engine itself inspects only `boolean` and `complex`. -/
inductive AttrType where
  | string
  | boolean
  | integer
  | decimal
  | dateTime
  | reference
  | binary
  | complex
deriving DecidableEq

/-- Modelled from the spec: attribute metadata (section 3): name, value
kind, multi-valued flag, sub-attribute set, free-form annotations. -/
inductive Attribute where
  | mk (name : String) (typ : AttrType) (multiValued : Bool)
       (subAttributes : List Attribute) (annotations : List String)

def Attribute.name : Attribute → String
  | .mk n _ _ _ _ => n

def Attribute.typ : Attribute → AttrType
  | .mk _ t _ _ _ => t

def Attribute.multiValued : Attribute → Bool
  | .mk _ _ m _ _ => m

def Attribute.subAttributes : Attribute → List Attribute
  | .mk _ _ _ s _ => s

def Attribute.annotations : Attribute → List String
  | .mk _ _ _ _ a => a

/-- Dynamically typed values flowing through the engine, mirroring the Go
interface values used for callback payloads: scalars, nil, slices and
string-keyed maps (kept as association lists in composition order). -/
inductive GoVal where
  | str (s : String)
  | int (i : Int)
  | boolean (b : Bool)
  | null
  | list (elems : List GoVal)
  | obj (fields : List (String × GoVal))

/-- Modelled from the spec: a property node (section 3): attribute metadata,
a raw scalar value for simple nodes, an ordered sequence of children for
complex and multi-valued nodes.  The pid field models Go pointer identity of
the node (the primary-or-first strategy compares children by identity). -/
inductive Property where
  | mk (attr : Attribute) (pid : Nat) (val : Option GoVal) (children : List Property)

def Property.attr : Property → Attribute
  | .mk a _ _ _ => a

def Property.pid : Property → Nat
  | .mk _ i _ _ => i

def Property.val : Property → Option GoVal
  | .mk _ _ v _ => v

def Property.children : Property → List Property
  | .mk _ _ _ c => c

def Property.multiValued (p : Property) : Bool :=
  p.attr.multiValued

/-- Modelled from the spec: looking up a named child of a complex node
(ChildAtIndex with a string index); yields nothing when the node is not a
singular complex node or has no child by that name. -/
def Property.childAtName (p : Property) (name : String) : Option Property :=
  if p.attr.typ = .complex ∧ ¬p.attr.multiValued then
    p.children.find? (fun c => c.attr.name = name)
  else
    none

/-- The error taxonomy of the engine (spec section 7 and shared/errors.go).
The external constructor models errors produced by caller-supplied callbacks
or by the filter evaluator; nilPanicked models the Go runtime fault from
invoking a nil callback; fuelOut is the sentinel of the fuel bound and is
produced by no code path of the embedded engine itself. -/
inductive TErr where
  | invalidFilter (detail : String)
  | invalidPath (detail : String)
  | noAttribute (name : String)
  | internalErr (detail : String)
  | external (code : Nat)
  | nilPanicked
  | fuelOut
deriving DecidableEq

/-- Modelled from the spec: the navigator (section 3), a cursor over one
property tree: the current node plus the stack of nodes above it. -/
structure Nav where
  cur : Property
  above : List Property

/-- Modelled from the spec: Dot pushes the named sub-attribute of the
current complex node; error if the current node is not a singular complex
node (invalid path) or has no such sub-attribute (no attribute). -/
def Nav.dot (nav : Nav) (name : String) : Except TErr Nav :=
  if nav.cur.attr.typ = .complex ∧ ¬nav.cur.attr.multiValued then
    match nav.cur.children.find? (fun c => c.attr.name = name) with
    | some c => .ok ⟨c, nav.cur :: nav.above⟩
    | none => .error (.noAttribute name)
  else
    .error (.invalidPath "not a complex property")

/-- Modelled from the spec: At pushes the indexed child of the current
multi-valued node; error if out of range or not multi-valued. -/
def Nav.at (nav : Nav) (index : Nat) : Except TErr Nav :=
  if nav.cur.attr.multiValued then
    match nav.cur.children[index]? with
    | some c => .ok ⟨c, nav.cur :: nav.above⟩
    | none => .error (.invalidPath "index out of range")
  else
    .error (.invalidPath "not a multiValued property")

/-- Modelled from the spec: Retract pops exactly one level; at the root it
is a no-op. -/
def Nav.retract (nav : Nav) : Nav :=
  match nav.above with
  | [] => nav
  | p :: rest => ⟨p, rest⟩

/-- The classification of a query AST node (spec section 3): a path segment,
an operator of a filter subtree, or a literal operand. -/
inductive ExpTyp where
  | path
  | operator
  | literal
deriving DecidableEq

/-- Modelled from the spec: one query AST node (section 3): a token, a
classification, a flag marking the root of a bracketed filter subtree, the
left and right operand links, and the next link. -/
inductive Exp where
  | mk (token : String) (typ : ExpTyp) (rootOfFilter : Bool)
       (l : Option Exp) (r : Option Exp) (nx : Option Exp)

def Exp.token : Exp → String
  | .mk t _ _ _ _ _ => t

def Exp.typ : Exp → ExpTyp
  | .mk _ t _ _ _ _ => t

def Exp.rootOfFilter : Exp → Bool
  | .mk _ _ f _ _ _ => f

def Exp.l : Exp → Option Exp
  | .mk _ _ _ a _ _ => a

def Exp.r : Exp → Option Exp
  | .mk _ _ _ _ b _ => b

def Exp.nx : Exp → Option Exp
  | .mk _ _ _ _ _ n => n

def Exp.isPath (e : Exp) : Bool :=
  e.typ = .path

def Exp.isLiteral (e : Exp) : Bool :=
  e.typ = .literal

/-- The equality operator token (expr.Eq). -/
def eqOp : String := "eq"

/-- A query chain (following nx links only) that contains no filter root:
the shape of the segment list trailing a single bracketed filter. -/
def filterFreeChain : Option Exp → Bool
  | none => true
  | some e => !e.rootOfFilter && filterFreeChain e.nx
termination_by oe => sizeOf oe
decreasing_by
  cases e with
  | mk t ty f l r nx =>
    simp [Exp.nx]
    omega

/-- One invocation of the termination callback: the navigator position it
was handed and the injected value (none for plain reach callbacks). -/
structure Event where
  nav : Nav
  value : Option GoVal

/-- The outcome of one traversal frame: the navigator as left behind by the
frame, the callback invocations that happened (in order), and the error, if
any, that aborted the frame. -/
structure TRes where
  nav : Nav
  events : List Event
  err : Option TErr

/-- The annotation marking the primary sub-attribute (annotation.Primary). -/
def annotationPrimary : String := "@Primary"

/-- The predicate of FindSubAttribute in primaryOrFirstStrategy: carries the
primary annotation and is boolean typed. -/
def isPrimaryMarker (sa : Attribute) : Bool :=
  sa.annotations.contains annotationPrimary && sa.typ = .boolean

/-- The predicate of FindChild in primaryOrFirstStrategy: the child has a
sub-property by the given name whose raw value is boolean true. -/
def hasTruePrimary (name : String) (child : Property) : Bool :=
  match child.childAtName name with
  | some sub =>
    match sub.val with
    | some (.boolean b) => b
    | _ => false
  | none => false

/-- selectAllStrategy of traverse.go: every element index is selected. -/
def selectAllStrategy : Property → Nat → Property → Bool :=
  fun _ _ _ => true

/-- primaryOrFirstStrategy of traverse.go: select the first child whose
primary-annotated boolean sub-attribute is raw true (by identity), else
index 0. -/
def primaryOrFirstStrategy (multiValuedComplex : Property) : Nat → Property → Bool :=
  match multiValuedComplex.attr.subAttributes.find? isPrimaryMarker with
  | some primaryAttr =>
    match multiValuedComplex.children.find? (hasTruePrimary primaryAttr.name) with
    | some truePrimary => fun _ child => child.pid = truePrimary.pid
    | none => fun index _ => index = 0
  | none => fun index _ => index = 0

namespace VA

/-- The traverser of version A of traverse.go.  The filter evaluator (ev) is
an external collaborator and is carried as an abstract function, per its
call contract in the spec (section 6). -/
structure Traverser where
  addByEqual : Bool
  value : Option GoVal
  callback : Option (Nav → Option TErr)
  callbackAddAttribute : Option (Nav → Option GoVal → Option TErr)
  elementStrategy : Property → Nat → Property → Bool
  ev : Property → Exp → Except TErr Bool

/-- invokeCallback of version A: invoke callbackAddAttribute, then callback,
whichever are set, propagating the first error.  One event records the
invocation point. -/
def Traverser.invokeCallback (t : Traverser) (nav : Nav) (value : Option GoVal) : TRes :=
  let e : Event := ⟨nav, value⟩
  match t.callbackAddAttribute with
  | some f =>
    match f nav value with
    | some err => ⟨nav, [e], some err⟩
    | none =>
      match t.callback with
      | some g => ⟨nav, [e], g nav⟩
      | none => ⟨nav, [e], none⟩
  | none =>
    match t.callback with
    | some g => ⟨nav, [e], g nav⟩
    | none => ⟨nav, [e], none⟩

/-- traverseNext of version A: descend by the current token, recurse on the
next segment through the supplied recursive call, retract on exit.  On a
descent error the navigator error is returned at once, without recursion. -/
def traverseNext (tr : Nav → Option Exp → TRes) (nav : Nav) (q : Exp) : TRes :=
  match nav.dot q.token with
  | .error e => ⟨nav, [], some e⟩
  | .ok nav1 =>
    let r := tr nav1 q.nx
    ⟨r.nav.retract, r.events, r.err⟩

/-- The element loop of traverseSelectedElements (the ForEachChild visitor):
skip elements rejected by the strategy selector, push the rest by index,
recurse on the same query, retract, short-circuit on the first error. -/
def selLoop (tr : Nav → Option Exp → TRes) (sel : Nat → Property → Bool)
    (nav : Nav) (q : Exp) (idx : Nat) : List Property → TRes
  | [] => ⟨nav, [], none⟩
  | c :: rest =>
    if sel idx c then
      match nav.at idx with
      | .error e => ⟨nav, [], some e⟩
      | .ok nav1 =>
        let r := tr nav1 (some q)
        let nav2 := r.nav.retract
        match r.err with
        | some e => ⟨nav2, r.events, some e⟩
        | none =>
          let r2 := selLoop tr sel nav2 q (idx + 1) rest
          ⟨r2.nav, r.events ++ r2.events, r2.err⟩
    else
      selLoop tr sel nav q (idx + 1) rest

/-- traverseSelectedElements of version A: compute the selector from the
element strategy and run the element loop over the children. -/
def traverseSelectedElements (t : Traverser) (tr : Nav → Option Exp → TRes)
    (nav : Nav) (q : Exp) : TRes :=
  selLoop tr (t.elementStrategy nav.cur) nav q 0 nav.cur.children

/-- The element loop of traverseQualifiedElements of version A (the
ForEachChild visitor): push each child, evaluate the filter against it,
retract; skip on a false evaluation, recurse on the trailing segments on a
true one, recording in isFound whether any child matched. -/
def qualLoop (t : Traverser) (tr : Nav → Option Exp → TRes)
    (nav : Nav) (filter : Exp) (idx : Nat) (isFound : Bool) :
    List Property → TRes × Bool
  | [] => (⟨nav, [], none⟩, isFound)
  | _c :: rest =>
    match nav.at idx with
    | .error e => (⟨nav, [], some e⟩, isFound)
    | .ok nav1 =>
      match t.ev nav1.cur filter with
      | .error e => (⟨nav1.retract, [], some e⟩, isFound)
      | .ok false => qualLoop t tr (nav1.retract) filter (idx + 1) isFound rest
      | .ok true =>
        let r := tr nav1 filter.nx
        let nav2 := r.nav.retract
        match r.err with
        | some e => (⟨nav2, r.events, some e⟩, true)
        | none =>
          let p := qualLoop t tr nav2 filter (idx + 1) true rest
          (⟨p.1.nav, r.events ++ p.1.events, p.1.err⟩, p.2)

/-- traverseQualifiedElements of version A: run the qualified loop over the
children of the current node, reporting whether any child matched. -/
def traverseQualifiedElements (t : Traverser) (tr : Nav → Option Exp → TRes)
    (nav : Nav) (filter : Exp) : TRes × Bool :=
  qualLoop t tr nav filter 0 false nav.cur.children

/-- traverse of version A, with an explicit fuel bound on the recursion
depth.  Mirrors the source control flow: empty query fires the callback; a
filter root requires a multi-valued node, runs the qualified pass, composes
an implicit-add value when in add-by-equal mode with an Eq token and no
match was found, and otherwise falls through to the plain element or
segment traversal. -/
def traverse (t : Traverser) : Nat → Nav → Option Exp → TRes
  | 0, nav, _ => ⟨nav, [], some .fuelOut⟩
  | _fuel + 1, nav, none => t.invokeCallback nav none
  | fuel + 1, nav, some q =>
    if q.rootOfFilter then
      if ¬nav.cur.attr.multiValued then
        ⟨nav, [], some (.invalidFilter "filter applied to singular attribute")⟩
      else
        let p := traverseQualifiedElements t (traverse t fuel) nav q
        match p.1.err with
        | some _ => p.1
        | none =>
          if ¬p.2 ∧ t.addByEqual ∧ q.token = eqOp then
            if (q.nx.bind Exp.nx).isSome then
              ⟨p.1.nav, p.1.events, some (.invalidFilter "only a single Eq filter is applicable")⟩
            else
              let keyValue := match q.nx with
                | some n => n.token
                | none => ""
              let filterKey := match q.l with
                | some ln => ln.token
                | none => ""
              let filterValue := match q.r with
                | some rn => rn.token
                | none => ""
              let rc := t.invokeCallback p.1.nav
                (some (.list [.obj [(keyValue, t.value.getD .null), (filterKey, .str filterValue)]]))
              ⟨rc.nav, p.1.events ++ rc.events, rc.err⟩
          else
            -- fall-through after the filter block (no return on this path
            -- in the source): plain element or segment traversal
            if p.1.nav.cur.attr.multiValued then
              let r2 := traverseSelectedElements t (traverse t fuel) p.1.nav q
              ⟨r2.nav, p.1.events ++ r2.events, r2.err⟩
            else
              let r2 := traverseNext (traverse t fuel) p.1.nav q
              ⟨r2.nav, p.1.events ++ r2.events, r2.err⟩
    else
      if nav.cur.attr.multiValued then
        traverseSelectedElements t (traverse t fuel) nav q
      else
        traverseNext (traverse t fuel) nav q

/-- defaultTraverse of version A: plain walk with the select-all strategy. -/
def defaultTraverse (fuel : Nat) (property : Property) (query : Option Exp)
    (callback : Nav → Option TErr) (ev : Property → Exp → Except TErr Bool) : TRes :=
  traverse ⟨false, none, some callback, none, selectAllStrategy, ev⟩ fuel ⟨property, []⟩ query

/-- addByEqualOperatorTraverse of version A: add-by-equal mode with the
select-all strategy and the add-attribute callback. -/
def addByEqualOperatorTraverse (fuel : Nat) (value : Option GoVal) (property : Property)
    (query : Option Exp) (callback : Nav → Option GoVal → Option TErr)
    (ev : Property → Exp → Except TErr Bool) : TRes :=
  traverse ⟨true, value, none, some callback, selectAllStrategy, ev⟩ fuel ⟨property, []⟩ query

/-- primaryOrFirstTraverse of version A: plain walk narrowed to the
primary-or-first element of each multi-valued collection. -/
def primaryOrFirstTraverse (fuel : Nat) (property : Property) (query : Option Exp)
    (callback : Nav → Option TErr) (ev : Property → Exp → Except TErr Bool) : TRes :=
  traverse ⟨false, none, some callback, none, primaryOrFirstStrategy, ev⟩ fuel ⟨property, []⟩ query

end VA

namespace VB

/-- The traverser of version B of traverse.go.  The filter evaluator
(evaluate and normalize) is an external collaborator carried as the
abstract functions ev and nf, per its call contract in the spec
(section 6). -/
structure Traverser where
  addByEqFilter : Bool
  valueByEqFilter : Option GoVal
  callback : Option (Nav → Option TErr)
  callbackUpdatedValue : Option (Nav → Option GoVal → Option TErr)
  elementStrategy : Property → Nat → Property → Bool
  ev : Property → Exp → Except TErr Bool
  nf : Attribute → String → Except TErr GoVal

/-- The attribute of one element of a multi-valued collection: the same
metadata with the multi-valued flag cleared. -/
def elementAttr (a : Attribute) : Attribute :=
  .mk a.name a.typ false a.subAttributes a.annotations

/-- Modelled from the spec: the element appended by Add with an empty map
(section 4.7): an empty element conforming to the element attribute, with
one unassigned child per sub-attribute.  Only the first level of children
is ever inspected (the type-discovery Dot), so deeper levels are left
empty. -/
def newElement (a : Attribute) : Property :=
  .mk (elementAttr a) 0 none (a.subAttributes.map (fun sa => .mk sa 0 none []))

/-- updateValueByEqFilter of version B: validate the single-Eq filter
shape, discover the type of the comparison sub-attribute on a speculative
clone-plus-empty-element, normalize the literal against it, and hand the
synthesized element to the updated-value callback. -/
def updateValueByEqFilter (t : Traverser) (nav : Nav) (query : Exp) : TRes :=
  let value := t.valueByEqFilter
  let filterKey := match query.l with
    | some ln => if ln.isPath then ln.token else ""
    | none => ""
  let keyValueE : Except TErr String := match query.nx with
    | some n =>
      if n.isPath then
        if n.nx.isSome then
          .error (.invalidFilter "only a single Eq filter is applicable")
        else
          .ok n.token
      else .ok ""
    | none => .ok ""
  match keyValueE with
  | .error e => ⟨nav, [], some e⟩
  | .ok keyValue =>
    if filterKey = "" ∨ keyValue = "" then
      ⟨nav, [], some (.invalidFilter "filter is not supported")⟩
    else
      let filterValueE : Except TErr (Option GoVal) := match query.r with
        | some rn =>
          if rn.isLiteral then
            -- clone the target, append an empty element, descend At 0 and
            -- Dot filterKey to discover the comparison attribute type
            let propCopy := nav.cur
            let withAdded : Property :=
              .mk propCopy.attr propCopy.pid propCopy.val
                (propCopy.children ++ [newElement propCopy.attr])
            let navCopy : Nav := ⟨withAdded, []⟩
            match navCopy.at 0 with
            | .error _ => .error (.invalidFilter "invalid filter")
            | .ok nav0 =>
              match nav0.dot filterKey with
              | .error _ => .error (.invalidFilter "invalid filter")
              | .ok navk =>
                match t.nf navk.cur.attr rn.token with
                | .error _ => .error (.invalidFilter "invalid filter value")
                | .ok v => .ok (some v)
          else .ok none
        | none => .ok none
      match filterValueE with
      | .error e => ⟨nav, [], some e⟩
      | .ok filterValue =>
        match t.callbackUpdatedValue with
        | none => ⟨nav, [], some (.internalErr "callbackUpdatedValue not initiated")⟩
        | some f =>
          let v : GoVal :=
            .list [.obj [(keyValue, value.getD .null), (filterKey, filterValue.getD .null)]]
          ⟨nav, [⟨nav, some v⟩], f nav (some v)⟩

/-- traverseNext of version B (identical to version A). -/
def traverseNext (tr : Nav → Option Exp → TRes) (nav : Nav) (q : Exp) : TRes :=
  match nav.dot q.token with
  | .error e => ⟨nav, [], some e⟩
  | .ok nav1 =>
    let r := tr nav1 q.nx
    ⟨r.nav.retract, r.events, r.err⟩

/-- The element loop of traverseSelectedElements of version B (identical to
version A). -/
def selLoop (tr : Nav → Option Exp → TRes) (sel : Nat → Property → Bool)
    (nav : Nav) (q : Exp) (idx : Nat) : List Property → TRes
  | [] => ⟨nav, [], none⟩
  | c :: rest =>
    if sel idx c then
      match nav.at idx with
      | .error e => ⟨nav, [], some e⟩
      | .ok nav1 =>
        let r := tr nav1 (some q)
        let nav2 := r.nav.retract
        match r.err with
        | some e => ⟨nav2, r.events, some e⟩
        | none =>
          let r2 := selLoop tr sel nav2 q (idx + 1) rest
          ⟨r2.nav, r.events ++ r2.events, r2.err⟩
    else
      selLoop tr sel nav q (idx + 1) rest

/-- traverseSelectedElements of version B. -/
def traverseSelectedElements (t : Traverser) (tr : Nav → Option Exp → TRes)
    (nav : Nav) (q : Exp) : TRes :=
  selLoop tr (t.elementStrategy nav.cur) nav q 0 nav.cur.children

/-- The element loop of traverseQualifiedElements of version B: push each
child, evaluate the filter, retract; skip on false, recurse on the trailing
segments on true; no isFound tracking. -/
def qualLoop (t : Traverser) (tr : Nav → Option Exp → TRes)
    (nav : Nav) (filter : Exp) (idx : Nat) : List Property → TRes
  | [] => ⟨nav, [], none⟩
  | _c :: rest =>
    match nav.at idx with
    | .error e => ⟨nav, [], some e⟩
    | .ok nav1 =>
      match t.ev nav1.cur filter with
      | .error e => ⟨nav1.retract, [], some e⟩
      | .ok false => qualLoop t tr (nav1.retract) filter (idx + 1) rest
      | .ok true =>
        let r := tr nav1 filter.nx
        let nav2 := r.nav.retract
        match r.err with
        | some e => ⟨nav2, r.events, some e⟩
        | none =>
          let r2 := qualLoop t tr nav2 filter (idx + 1) rest
          ⟨r2.nav, r.events ++ r2.events, r2.err⟩

/-- traverseQualifiedElements of version B. -/
def traverseQualifiedElements (t : Traverser) (tr : Nav → Option Exp → TRes)
    (nav : Nav) (filter : Exp) : TRes :=
  qualLoop t tr nav filter 0 nav.cur.children

/-- traverse of version B, with an explicit fuel bound: empty query fires
the plain callback directly (a nil callback faults); a filter root requires
a multi-valued node and branches into updateValueByEqFilter when in add
mode with an Eq token, else into the qualified pass; otherwise the plain
element or segment traversal runs. -/
def traverse (t : Traverser) : Nat → Nav → Option Exp → TRes
  | 0, nav, _ => ⟨nav, [], some .fuelOut⟩
  | _fuel + 1, nav, none =>
    match t.callback with
    | some f => ⟨nav, [⟨nav, none⟩], f nav⟩
    | none => ⟨nav, [], some .nilPanicked⟩
  | fuel + 1, nav, some q =>
    if q.rootOfFilter then
      if ¬nav.cur.attr.multiValued then
        ⟨nav, [], some (.invalidFilter "filter applied to singular attribute")⟩
      else if t.addByEqFilter ∧ q.token = eqOp then
        updateValueByEqFilter t nav q
      else
        traverseQualifiedElements t (traverse t fuel) nav q
    else
      if nav.cur.attr.multiValued then
        traverseSelectedElements t (traverse t fuel) nav q
      else
        traverseNext (traverse t fuel) nav q

/-- defaultTraverse of version B. -/
def defaultTraverse (fuel : Nat) (property : Property) (query : Option Exp)
    (callback : Nav → Option TErr) (ev : Property → Exp → Except TErr Bool)
    (nf : Attribute → String → Except TErr GoVal) : TRes :=
  traverse ⟨false, none, some callback, none, selectAllStrategy, ev, nf⟩ fuel ⟨property, []⟩ query

/-- addByEqFilterTraverse of version B. -/
def addByEqFilterTraverse (fuel : Nat) (value : Option GoVal) (property : Property)
    (query : Option Exp) (callback : Nav → Option GoVal → Option TErr)
    (ev : Property → Exp → Except TErr Bool)
    (nf : Attribute → String → Except TErr GoVal) : TRes :=
  traverse ⟨true, value, none, some callback, selectAllStrategy, ev, nf⟩ fuel ⟨property, []⟩ query

/-- primaryOrFirstTraverse of version B. -/
def primaryOrFirstTraverse (fuel : Nat) (property : Property) (query : Option Exp)
    (callback : Nav → Option TErr) (ev : Property → Exp → Except TErr Bool)
    (nf : Attribute → String → Except TErr GoVal) : TRes :=
  traverse ⟨false, none, some callback, none, primaryOrFirstStrategy, ev, nf⟩ fuel ⟨property, []⟩ query

end VB

/-! Concrete fixtures used by the witness and counterexample theorems. -/

/-- A filter evaluator that rejects every candidate. -/
def evAllFalse : Property → Exp → Except TErr Bool := fun _ _ => .ok false

/-- A filter evaluator that matches elements whose type sub-property is the
string work. -/
def evTypeWork : Property → Exp → Except TErr Bool := fun p _ =>
  match p.childAtName "type" with
  | some sub =>
    match sub.val with
    | some (.str s) => .ok (s = "work")
    | _ => .ok false
  | none => .ok false

/-- A plain callback that always succeeds. -/
def cbOk : Nav → Option TErr := fun _ => none

/-- An add-attribute callback that always succeeds. -/
def cbAddOk : Nav → Option GoVal → Option TErr := fun _ _ => none

/-- A normalizer that accepts every literal as a string. -/
def nfStr : Attribute → String → Except TErr GoVal := fun _ s => .ok (.str s)

def attrTypeSub : Attribute := .mk "type" .string false [] []

def attrValueSub : Attribute := .mk "value" .string false [] []

def attrPrimarySub : Attribute := .mk "primary" .boolean false [] [annotationPrimary]

def attrEmails : Attribute := .mk "emails" .complex true [attrTypeSub, attrValueSub, attrPrimarySub] []

def attrEmailElem : Attribute := .mk "emails" .complex false [attrTypeSub, attrValueSub, attrPrimarySub] []

def elemHome : Property := .mk attrEmailElem 10 none
  [.mk attrTypeSub 11 (some (.str "home")) [], .mk attrValueSub 12 (some (.str "a@x")) [],
   .mk attrPrimarySub 13 (some (.boolean false)) []]

def elemWork : Property := .mk attrEmailElem 20 none
  [.mk attrTypeSub 21 (some (.str "work")) [], .mk attrValueSub 22 (some (.str "b@x")) [],
   .mk attrPrimarySub 23 (some (.boolean true)) []]

def elemOther : Property := .mk attrEmailElem 30 none
  [.mk attrTypeSub 31 (some (.str "other")) [], .mk attrValueSub 32 (some (.str "c@x")) [],
   .mk attrPrimarySub 33 (some (.boolean false)) []]

def emailsProp : Property := .mk attrEmails 1 none [elemHome, elemWork]

def emailsEmptyProp : Property := .mk attrEmails 2 none []

def emailsNoPrimaryProp : Property := .mk attrEmails 3 none [elemHome, elemOther]

/-- A singular string property, for the filter-on-singular error cases. -/
def valueSingularProp : Property := .mk attrValueSub 40 (some (.str "a@x")) []

def qpValue : Exp := .mk "value" .path false none none none

def qpType : Exp := .mk "type" .path false none none none

def qlWork : Exp := .mk "work" .literal false none none none

/-- The filter node of emails[type eq "work"].value, as seen at the
multi-valued node: an Eq filter root with one trailing path segment. -/
def qFilterEq : Exp := .mk "eq" .operator true (some qpType) (some qlWork) (some qpValue)

def qpExtra : Exp := .mk "x" .path false none none none

def qpValueChain : Exp := .mk "value" .path false none none (some qpExtra)

/-- An Eq filter root with two trailing path segments (a chain longer than
one after the bracket). -/
def qFilterEqChain : Exp := .mk "eq" .operator true (some qpType) (some qlWork) (some qpValueChain)

/-- An Eq filter root whose left operand is a literal (not a path) and
whose trailing chain is longer than one. -/
def qFilterEqLeftLit : Exp := .mk "eq" .operator true (some qlWork) (some qlWork) (some qpValueChain)

/-- An Eq filter root with one trailing path segment and no right operand. -/
def qFilterEqNoRight : Exp := .mk "eq" .operator true (some qpType) none (some qpValue)

/-- An Eq filter root whose left operand is a literal (not a path) and
whose trailing chain is a single path segment. -/
def qFilterEqLeftLitShort : Exp := .mk "eq" .operator true (some qlWork) (some qlWork) (some qpValue)

/-- A filter root whose operator token is not eq. -/
def qFilterNe : Exp := .mk "ne" .operator true (some qpType) (some qlWork) (some qpValue)

/-- Version A add-by-equal traverser over the all-false evaluator. -/
def travA1 : VA.Traverser := ⟨true, some (.str "c@x"), none, some cbAddOk, selectAllStrategy, evAllFalse⟩

/-- Version A add-by-equal traverser over the type-eq-work evaluator. -/
def travA2 : VA.Traverser := ⟨true, some (.str "c@x"), none, some cbAddOk, selectAllStrategy, evTypeWork⟩

/-- Version A default traverser. -/
def travA3 : VA.Traverser := ⟨false, none, some cbOk, none, selectAllStrategy, evTypeWork⟩

/-- Version B add-by-eq-filter traverser. -/
def travB1 : VB.Traverser := ⟨true, some (.str "c@x"), none, some cbAddOk, selectAllStrategy, evAllFalse, nfStr⟩

/-- Version B default traverser over the all-false evaluator. -/
def travB2 : VB.Traverser := ⟨false, none, some cbOk, none, selectAllStrategy, evAllFalse, nfStr⟩

/-! Navigator stack lemmas. -/

theorem Nav.retract_of_dot {nav nav1 : Nav} {s : String} (h : nav.dot s = .ok nav1) :
    nav1.retract = nav := by
  unfold Nav.dot at h
  split at h
  · split at h
    · injection h with h2
      subst h2
      rfl
    · simp at h
  · simp at h

theorem Nav.retract_of_at {nav nav1 : Nav} {i : Nat} (h : nav.at i = .ok nav1) :
    nav1.retract = nav := by
  unfold Nav.at at h
  split at h
  · split at h
    · injection h with h2
      subst h2
      rfl
    · simp at h
  · simp at h

theorem Nav.at_ok_get {nav nav1 : Nav} {i : Nat} (h : nav.at i = .ok nav1) :
    nav.cur.children[i]? = some nav1.cur ∧ nav1 = ⟨nav1.cur, nav.cur :: nav.above⟩ := by
  unfold Nav.at at h
  split at h
  · split at h
    · injection h with h2
      subst h2
      constructor
      · assumption
      · rfl
    · simp at h
  · simp at h

theorem Nav.at_of_get {nav : Nav} {i : Nat} {c : Property}
    (hm : nav.cur.attr.multiValued = true) (h : nav.cur.children[i]? = some c) :
    nav.at i = .ok ⟨c, nav.cur :: nav.above⟩ := by
  unfold Nav.at
  rw [if_pos hm, h]

/-! Navigator restoration lemmas: every frame leaves the navigator exactly
as it found it, on success and on error alike (claim C6). -/

theorem VA.invokeCallback_nav (t : VA.Traverser) (nav : Nav) (v : Option GoVal) :
    (t.invokeCallback nav v).nav = nav := by
  unfold VA.Traverser.invokeCallback
  repeat' split
  all_goals rfl

theorem VA.traverseNext_nav (tr : Nav → Option Exp → TRes)
    (htr : ∀ nav q, (tr nav q).nav = nav) (nav : Nav) (q : Exp) :
    (VA.traverseNext tr nav q).nav = nav := by
  unfold VA.traverseNext
  cases hd : nav.dot q.token with
  | error e => rfl
  | ok nav1 => simp [htr, Nav.retract_of_dot hd]

theorem VA.selLoop_nav (tr : Nav → Option Exp → TRes)
    (htr : ∀ nav q, (tr nav q).nav = nav) (sel : Nat → Property → Bool) (q : Exp) :
    ∀ (cs : List Property) (nav : Nav) (idx : Nat),
      (VA.selLoop tr sel nav q idx cs).nav = nav := by
  intro cs
  induction cs with
  | nil =>
    intro nav idx
    rfl
  | cons c rest ih =>
    intro nav idx
    unfold VA.selLoop
    split
    · cases hat : nav.at idx with
      | error e => simp
      | ok nav1 =>
        have h2 : nav1.retract = nav := Nav.retract_of_at hat
        cases herr : (tr nav1 (some q)).err with
        | some e => simp [herr, htr, h2]
        | none => simp [herr, htr, h2, ih]
    · exact ih nav (idx + 1)

theorem VA.traverseSelectedElements_nav (t : VA.Traverser) (tr : Nav → Option Exp → TRes)
    (htr : ∀ nav q, (tr nav q).nav = nav) (nav : Nav) (q : Exp) :
    (VA.traverseSelectedElements t tr nav q).nav = nav :=
  VA.selLoop_nav tr htr _ q _ nav 0

theorem VA.qualLoop_nav (t : VA.Traverser) (tr : Nav → Option Exp → TRes)
    (htr : ∀ nav q, (tr nav q).nav = nav) (filter : Exp) :
    ∀ (cs : List Property) (nav : Nav) (idx : Nat) (isFound : Bool),
      ((VA.qualLoop t tr nav filter idx isFound cs).1).nav = nav := by
  intro cs
  induction cs with
  | nil =>
    intro nav idx isFound
    rfl
  | cons c rest ih =>
    intro nav idx isFound
    unfold VA.qualLoop
    cases hat : nav.at idx with
    | error e => simp
    | ok nav1 =>
      have h2 : nav1.retract = nav := Nav.retract_of_at hat
      cases hev : t.ev nav1.cur filter with
      | error e => simp [hev, h2]
      | ok b =>
        cases b with
        | false => simp [hev, h2, ih]
        | true =>
          cases herr : (tr nav1 filter.nx).err with
          | some e => simp [hev, herr, htr, h2]
          | none => simp [hev, herr, htr, h2, ih]

theorem VA.traverseQualifiedElements_nav (t : VA.Traverser) (tr : Nav → Option Exp → TRes)
    (htr : ∀ nav q, (tr nav q).nav = nav) (nav : Nav) (filter : Exp) :
    ((VA.traverseQualifiedElements t tr nav filter).1).nav = nav :=
  VA.qualLoop_nav t tr htr filter nav.cur.children nav 0 false

theorem VA.traverse_nav (t : VA.Traverser) :
    ∀ (fuel : Nat) (nav : Nav) (q : Option Exp), (VA.traverse t fuel nav q).nav = nav := by
  intro fuel
  induction fuel with
  | zero =>
    intro nav q
    rfl
  | succ fuel ih =>
    intro nav q
    cases q with
    | none => exact VA.invokeCallback_nav t nav none
    | some q =>
      have htr : ∀ nav2 q2, (VA.traverse t fuel nav2 q2).nav = nav2 := fun nav2 q2 => ih nav2 q2
      have hqual := VA.traverseQualifiedElements_nav t (VA.traverse t fuel) htr nav q
      have hsel : ∀ nv, (VA.traverseSelectedElements t (VA.traverse t fuel) nv q).nav = nv :=
        fun nv => VA.traverseSelectedElements_nav t _ htr nv q
      have hnext : ∀ nv, (VA.traverseNext (VA.traverse t fuel) nv q).nav = nv :=
        fun nv => VA.traverseNext_nav _ htr nv q
      have hinv : ∀ nv v, (t.invokeCallback nv v).nav = nv := VA.invokeCallback_nav t
      by_cases hrf : q.rootOfFilter = true
      · by_cases hmv : nav.cur.attr.multiValued = true
        · unfold VA.traverse
          rw [if_pos hrf, if_neg (by simp [hmv])]
          cases herr : (VA.traverseQualifiedElements t (VA.traverse t fuel) nav q).1.err with
          | some e =>
            simp only [herr]
            exact hqual
          | none =>
            simp only [herr]
            split
            · split
              · simpa using hqual
              · simp [hinv, hqual]
            · split
              · simp [hsel, hqual]
              · simp [hnext, hqual]
        · unfold VA.traverse
          rw [if_pos hrf, if_pos (by simp [hmv])]
      · unfold VA.traverse
        rw [if_neg hrf]
        split
        · exact hsel nav
        · exact hnext nav

theorem VB.updateValueByEqFilter_nav (t : VB.Traverser) (nav : Nav) (q : Exp) :
    (VB.updateValueByEqFilter t nav q).nav = nav := by
  unfold VB.updateValueByEqFilter
  repeat'
    first
      | rfl
      | split
      | dsimp only

theorem VB.traverseNext_nav_vb (tr : Nav → Option Exp → TRes)
    (htr : ∀ nav q, (tr nav q).nav = nav) (nav : Nav) (q : Exp) :
    (VB.traverseNext tr nav q).nav = nav := by
  unfold VB.traverseNext
  cases hd : nav.dot q.token with
  | error e => rfl
  | ok nav1 => simp [htr, Nav.retract_of_dot hd]

theorem VB.selLoop_nav_vb (tr : Nav → Option Exp → TRes)
    (htr : ∀ nav q, (tr nav q).nav = nav) (sel : Nat → Property → Bool) (q : Exp) :
    ∀ (cs : List Property) (nav : Nav) (idx : Nat),
      (VB.selLoop tr sel nav q idx cs).nav = nav := by
  intro cs
  induction cs with
  | nil =>
    intro nav idx
    rfl
  | cons c rest ih =>
    intro nav idx
    unfold VB.selLoop
    split
    · cases hat : nav.at idx with
      | error e => simp
      | ok nav1 =>
        have h2 : nav1.retract = nav := Nav.retract_of_at hat
        cases herr : (tr nav1 (some q)).err with
        | some e => simp [herr, htr, h2]
        | none => simp [herr, htr, h2, ih]
    · exact ih nav (idx + 1)

theorem VB.traverseSelectedElements_nav_vb (t : VB.Traverser) (tr : Nav → Option Exp → TRes)
    (htr : ∀ nav q, (tr nav q).nav = nav) (nav : Nav) (q : Exp) :
    (VB.traverseSelectedElements t tr nav q).nav = nav :=
  VB.selLoop_nav_vb tr htr _ q _ nav 0

theorem VB.qualLoop_nav_vb (t : VB.Traverser) (tr : Nav → Option Exp → TRes)
    (htr : ∀ nav q, (tr nav q).nav = nav) (filter : Exp) :
    ∀ (cs : List Property) (nav : Nav) (idx : Nat),
      (VB.qualLoop t tr nav filter idx cs).nav = nav := by
  intro cs
  induction cs with
  | nil =>
    intro nav idx
    rfl
  | cons c rest ih =>
    intro nav idx
    unfold VB.qualLoop
    cases hat : nav.at idx with
    | error e => simp
    | ok nav1 =>
      have h2 : nav1.retract = nav := Nav.retract_of_at hat
      cases hev : t.ev nav1.cur filter with
      | error e => simp [hev, h2]
      | ok b =>
        cases b with
        | false => simp [hev, h2, ih]
        | true =>
          cases herr : (tr nav1 filter.nx).err with
          | some e => simp [hev, herr, htr, h2]
          | none => simp [hev, herr, htr, h2, ih]

theorem VB.traverseQualifiedElements_nav_vb (t : VB.Traverser) (tr : Nav → Option Exp → TRes)
    (htr : ∀ nav q, (tr nav q).nav = nav) (nav : Nav) (filter : Exp) :
    (VB.traverseQualifiedElements t tr nav filter).nav = nav :=
  VB.qualLoop_nav_vb t tr htr filter nav.cur.children nav 0

theorem VB.traverse_nav_vb (t : VB.Traverser) :
    ∀ (fuel : Nat) (nav : Nav) (q : Option Exp), (VB.traverse t fuel nav q).nav = nav := by
  intro fuel
  induction fuel with
  | zero =>
    intro nav q
    rfl
  | succ fuel ih =>
    intro nav q
    cases q with
    | none =>
      unfold VB.traverse
      cases t.callback <;> rfl
    | some q =>
      have htr : ∀ nav2 q2, (VB.traverse t fuel nav2 q2).nav = nav2 := fun nav2 q2 => ih nav2 q2
      unfold VB.traverse
      split
      · split
        · rfl
        · split
          · exact VB.updateValueByEqFilter_nav t nav q
          · exact VB.traverseQualifiedElements_nav_vb t _ htr nav q
      · split
        · exact VB.traverseSelectedElements_nav_vb t _ htr nav q
        · exact VB.traverseNext_nav_vb _ htr nav q

/-- C6: at every recursion depth and for every entry mode of either
version, a traversal frame leaves the navigator stack exactly as it found
it, on the success and on the error exit path alike; in particular every
successful Dot or At descent performed by a frame is undone by exactly one
Retract before that frame returns. -/
theorem c6_navigator_restored (tA : VA.Traverser) (tB : VB.Traverser)
    (fuel : Nat) (nav : Nav) (query : Option Exp) (qe : Exp) :
    (VA.traverse tA fuel nav query).nav = nav ∧
    (VB.traverse tB fuel nav query).nav = nav ∧
    (VA.traverseNext (VA.traverse tA fuel) nav qe).nav = nav ∧
    (VB.traverseNext (VB.traverse tB fuel) nav qe).nav = nav ∧
    ((VA.traverseQualifiedElements tA (VA.traverse tA fuel) nav qe).1).nav = nav ∧
    (VB.traverseQualifiedElements tB (VB.traverse tB fuel) nav qe).nav = nav ∧
    (VA.traverseSelectedElements tA (VA.traverse tA fuel) nav qe).nav = nav ∧
    (VB.traverseSelectedElements tB (VB.traverse tB fuel) nav qe).nav = nav :=
  ⟨VA.traverse_nav tA fuel nav query,
   VB.traverse_nav_vb tB fuel nav query,
   VA.traverseNext_nav _ (VA.traverse_nav tA fuel) nav qe,
   VB.traverseNext_nav_vb _ (VB.traverse_nav_vb tB fuel) nav qe,
   VA.traverseQualifiedElements_nav tA _ (VA.traverse_nav tA fuel) nav qe,
   VB.traverseQualifiedElements_nav_vb tB _ (VB.traverse_nav_vb tB fuel) nav qe,
   VA.traverseSelectedElements_nav tA _ (VA.traverse_nav tA fuel) nav qe,
   VB.traverseSelectedElements_nav_vb tB _ (VB.traverse_nav_vb tB fuel) nav qe⟩

/-- C3: for every traversal of either version, when the current query node
starts a filter and the current node is not multi-valued, the traversal
fails with the InvalidFilter error detailed "filter applied to singular
attribute", and the callback is never invoked (no events). -/
theorem c3_filter_on_singular (tA : VA.Traverser) (tB : VB.Traverser) (fuel : Nat)
    (nav : Nav) (q : Exp) (hrf : q.rootOfFilter = true)
    (hmv : nav.cur.attr.multiValued = false) :
    VA.traverse tA (fuel + 1) nav (some q) =
      ⟨nav, [], some (.invalidFilter "filter applied to singular attribute")⟩ ∧
    VB.traverse tB (fuel + 1) nav (some q) =
      ⟨nav, [], some (.invalidFilter "filter applied to singular attribute")⟩ := by
  constructor
  · unfold VA.traverse
    rw [if_pos hrf, if_pos (by simp [hmv])]
  · unfold VB.traverse
    rw [if_pos hrf, if_pos (by simp [hmv])]

/-- Witness for C3: the filter of emails[type eq "work"] applied to a
singular string attribute named value. -/
theorem c3_filter_on_singular_witness :
    qFilterEq.rootOfFilter = true ∧
    (Nav.mk valueSingularProp []).cur.attr.multiValued = false ∧
    (VA.traverse travA3 1 ⟨valueSingularProp, []⟩ (some qFilterEq) =
      ⟨⟨valueSingularProp, []⟩, [], some (.invalidFilter "filter applied to singular attribute")⟩ ∧
     VB.traverse travB2 1 ⟨valueSingularProp, []⟩ (some qFilterEq) =
      ⟨⟨valueSingularProp, []⟩, [], some (.invalidFilter "filter applied to singular attribute")⟩) :=
  ⟨rfl, rfl, c3_filter_on_singular travA3 travB2 0 ⟨valueSingularProp, []⟩ qFilterEq rfl rfl⟩

/-- C9: in path-segment traversal of either version, a failed descent by
the current token propagates the navigator error at once, independently of
the recursive continuation: no recursion happens, no callback is invoked,
and no mutation is performed; when the current node is a singular complex
node with no child by that token, the propagated error is the NoAttribute
error for that token. -/
theorem c9_dot_failure_aborts (trA trB : Nav → Option Exp → TRes) (nav : Nav) (q : Exp)
    (e : TErr) (h : nav.dot q.token = .error e) :
    VA.traverseNext trA nav q = ⟨nav, [], some e⟩ ∧
    VB.traverseNext trB nav q = ⟨nav, [], some e⟩ ∧
    (nav.cur.attr.typ = .complex → nav.cur.attr.multiValued = false →
      nav.cur.children.find? (fun c => c.attr.name = q.token) = none →
      e = .noAttribute q.token) := by
  refine ⟨?_, ?_, ?_⟩
  · unfold VA.traverseNext
    rw [h]
  · unfold VB.traverseNext
    rw [h]
  · intro hc hm hf
    unfold Nav.dot at h
    rw [if_pos (by simp [hc, hm]), hf] at h
    injection h with h2
    exact h2.symm

/-- Witness for C9: descending by the token x on a complex email element
that has no such sub-attribute. -/
theorem c9_dot_failure_aborts_witness :
    (Nav.mk elemHome []).dot qpExtra.token = .error (.noAttribute "x") ∧
    VA.traverseNext (VA.traverse travA3 1) ⟨elemHome, []⟩ qpExtra =
      ⟨⟨elemHome, []⟩, [], some (.noAttribute "x")⟩ ∧
    VB.traverseNext (VB.traverse travB2 1) ⟨elemHome, []⟩ qpExtra =
      ⟨⟨elemHome, []⟩, [], some (.noAttribute "x")⟩ :=
  ⟨rfl,
   (c9_dot_failure_aborts (VA.traverse travA3 1) (VB.traverse travB2 1) ⟨elemHome, []⟩
      qpExtra (.noAttribute "x") rfl).1,
   (c9_dot_failure_aborts (VA.traverse travA3 1) (VB.traverse travB2 1) ⟨elemHome, []⟩
      qpExtra (.noAttribute "x") rfl).2.1⟩

/-- C4: in version B, an add-by-equality traversal whose Eq filter is
followed by a trailing path node that itself has a further next node fails
with the InvalidFilter error detailed "only a single Eq filter is
applicable", and the callback is not invoked (no mutation is performed). -/
theorem c4_chained_trailing_segments (t : VB.Traverser) (fuel : Nat) (nav : Nav)
    (q n : Exp) (hadd : t.addByEqFilter = true) (hrf : q.rootOfFilter = true)
    (hmv : nav.cur.attr.multiValued = true) (htok : q.token = eqOp)
    (hnx : q.nx = some n) (hp : n.isPath = true) (hn2 : n.nx.isSome = true) :
    VB.traverse t (fuel + 1) nav (some q) =
      ⟨nav, [], some (.invalidFilter "only a single Eq filter is applicable")⟩ := by
  unfold VB.traverse
  rw [if_pos hrf, if_neg (by simp [hmv]), if_pos ⟨hadd, htok⟩]
  unfold VB.updateValueByEqFilter
  rw [hnx]
  simp [hp, hn2]

/-- Witness for C4: the filter of emails[type eq "work"].value.x, whose
trailing chain after the bracket has two nodes. -/
theorem c4_chained_trailing_segments_witness :
    travB1.addByEqFilter = true ∧
    qFilterEqChain.nx = some qpValueChain ∧
    qpValueChain.nx.isSome = true ∧
    VB.traverse travB1 1 ⟨emailsEmptyProp, []⟩ (some qFilterEqChain) =
      ⟨⟨emailsEmptyProp, []⟩, [], some (.invalidFilter "only a single Eq filter is applicable")⟩ :=
  ⟨rfl, rfl, rfl,
   c4_chained_trailing_segments travB1 0 ⟨emailsEmptyProp, []⟩ qFilterEqChain qpValueChain
     rfl rfl rfl rfl rfl rfl rfl⟩

/-- C2 (counterexample): the claimed termination predicate is false on an
Eq filter whose trailing chain has a second node, so the claim predicts the
ordinary filtered traversal; version B instead fires the implicit-add
handler, which reports an InvalidFilter error, while the ordinary
qualified-element traversal of the same state succeeds. -/
theorem c2_termination_predicate_counterexample :
    (VB.traverse travB1 5 ⟨emailsEmptyProp, []⟩ (some qFilterEqChain)).err =
      some (.invalidFilter "only a single Eq filter is applicable") ∧
    (VB.traverseQualifiedElements travB1 (VB.traverse travB1 4)
      ⟨emailsEmptyProp, []⟩ qFilterEqChain).err = none ∧
    VB.traverse travB1 5 ⟨emailsEmptyProp, []⟩ (some qFilterEqChain) ≠
      VB.traverseQualifiedElements travB1 (VB.traverse travB1 4)
        ⟨emailsEmptyProp, []⟩ qFilterEqChain := by
  refine ⟨rfl, rfl, fun h => ?_⟩
  have h1 : (VB.traverse travB1 5 ⟨emailsEmptyProp, []⟩ (some qFilterEqChain)).err =
      some (.invalidFilter "only a single Eq filter is applicable") := rfl
  have h2 : (VB.traverseQualifiedElements travB1 (VB.traverse travB1 4)
      ⟨emailsEmptyProp, []⟩ qFilterEqChain).err = none := rfl
  rw [h, h2] at h1
  exact Option.noConfusion h1

/-- C2 (amended): in version B, the branch decision at a filter root on a
multi-valued node in add-by-equality mode depends only on the operator
token: an Eq token fires the implicit-add handler (which performs the
operand-shape checks itself and reports InvalidFilter errors instead of
falling back to ordinary traversal), any other token runs the ordinary
qualified-element traversal, and an exhausted query fires the plain
callback. -/
theorem c2_termination_predicate_amended (t : VB.Traverser) (fuel : Nat) (nav : Nav)
    (q : Exp) (hadd : t.addByEqFilter = true) (hrf : q.rootOfFilter = true)
    (hmv : nav.cur.attr.multiValued = true) :
    (q.token = eqOp →
      VB.traverse t (fuel + 1) nav (some q) = VB.updateValueByEqFilter t nav q) ∧
    (q.token ≠ eqOp →
      VB.traverse t (fuel + 1) nav (some q) =
        VB.traverseQualifiedElements t (VB.traverse t fuel) nav q) ∧
    (∀ f, t.callback = some f →
      VB.traverse t (fuel + 1) nav none = ⟨nav, [⟨nav, none⟩], f nav⟩) := by
  refine ⟨?_, ?_, ?_⟩
  · intro htok
    unfold VB.traverse
    rw [if_pos hrf, if_neg (by simp [hmv]), if_pos ⟨hadd, htok⟩]
  · intro htok
    unfold VB.traverse
    rw [if_pos hrf, if_neg (by simp [hmv]), if_neg (by simp [htok])]
  · intro f hf
    unfold VB.traverse
    rw [hf]

/-- Witness for the amended C2: the Eq branch fires on
emails[type eq "work"].value and the ordinary pass runs for a ne token. -/
theorem c2_termination_predicate_amended_witness :
    travB1.addByEqFilter = true ∧
    VB.traverse travB1 3 ⟨emailsEmptyProp, []⟩ (some qFilterEq) =
      VB.updateValueByEqFilter travB1 ⟨emailsEmptyProp, []⟩ qFilterEq ∧
    VB.traverse travB1 3 ⟨emailsEmptyProp, []⟩ (some qFilterNe) =
      VB.traverseQualifiedElements travB1 (VB.traverse travB1 2)
        ⟨emailsEmptyProp, []⟩ qFilterNe :=
  ⟨rfl,
   (c2_termination_predicate_amended travB1 2 ⟨emailsEmptyProp, []⟩ qFilterEq
      rfl rfl rfl).1 rfl,
   (c2_termination_predicate_amended travB1 2 ⟨emailsEmptyProp, []⟩ qFilterNe
      rfl rfl rfl).2.1 (by decide)⟩

/-- C8 (counterexample): with a left operand that is not a path and a
trailing path chain of two nodes, the implicit-add composition of version B
reports the chain error, not the "filter is not supported" error the claim
predicts for every missing operand name. -/
theorem c8_not_supported_counterexample :
    (VB.traverse travB1 1 ⟨emailsEmptyProp, []⟩ (some qFilterEqLeftLit)).err =
      some (.invalidFilter "only a single Eq filter is applicable") ∧
    (VB.traverse travB1 1 ⟨emailsEmptyProp, []⟩ (some qFilterEqLeftLit)).err ≠
      some (.invalidFilter "filter is not supported") := by
  exact ⟨by decide, by decide⟩

/-- C8 (amended): when the implicit-add composition of version B is reached
and either operand name is missing (the left operand is absent or not a
path reference, or the trailing operand is absent or not a path reference),
the traversal fails with the InvalidFilter error detailed "filter is not
supported" and invokes no callback, unless the trailing operand is a path
carrying a further chain, in which case the "only a single Eq filter is
applicable" error takes precedence. -/
theorem c8_not_supported_amended (t : VB.Traverser) (fuel : Nat) (nav : Nav) (q : Exp)
    (hadd : t.addByEqFilter = true) (hrf : q.rootOfFilter = true)
    (hmv : nav.cur.attr.multiValued = true) (htok : q.token = eqOp)
    (hmiss : (∀ ln, q.l = some ln → ln.isPath = false) ∨
             (∀ n, q.nx = some n → n.isPath = false))
    (hnochain : ∀ n, q.nx = some n → n.isPath = true → n.nx = none) :
    VB.traverse t (fuel + 1) nav (some q) =
      ⟨nav, [], some (.invalidFilter "filter is not supported")⟩ := by
  unfold VB.traverse
  rw [if_pos hrf, if_neg (by simp [hmv]), if_pos ⟨hadd, htok⟩]
  unfold VB.updateValueByEqFilter
  rcases hmiss with hl | hn
  · cases hql : q.l with
    | none =>
      cases hqn : q.nx with
      | none => simp
      | some n =>
        by_cases hp : n.isPath = true
        · have hc := hnochain n hqn hp
          simp [hp, hc]
        · simp [hp]
    | some ln =>
      have hlp := hl ln hql
      cases hqn : q.nx with
      | none => simp [hlp]
      | some n =>
        by_cases hp : n.isPath = true
        · have hc := hnochain n hqn hp
          simp [hp, hlp, hc]
        · simp [hp, hlp]
  · cases hqn : q.nx with
    | none =>
      cases hql : q.l with
      | none => simp
      | some ln => simp
    | some n =>
      have hnp := hn n hqn
      cases hql : q.l with
      | none => simp [hnp]
      | some ln => simp [hnp]

/-- Witness for the amended C8: a literal left operand with a single
trailing path segment yields the "filter is not supported" error. -/
theorem c8_not_supported_amended_witness :
    (∀ ln, qFilterEqLeftLitShort.l = some ln → ln.isPath = false) ∧
    VB.traverse travB1 1 ⟨emailsEmptyProp, []⟩ (some qFilterEqLeftLitShort) =
      ⟨⟨emailsEmptyProp, []⟩, [], some (.invalidFilter "filter is not supported")⟩ :=
  ⟨fun ln h => by cases h; rfl,
   c8_not_supported_amended travB1 0 ⟨emailsEmptyProp, []⟩ qFilterEqLeftLitShort
     rfl rfl rfl rfl (.inl (fun ln h => by cases h; rfl))
     (fun n h hp => by cases h; rfl)⟩

/-- C10: in the implicit-add composition of version B, when the right
operand of the Eq filter is absent or not classified as a literal, no error
is raised and the literal-normalization and type-discovery step is skipped
entirely (the outcome does not depend on the normalizer): the synthesized
element maps the comparison sub-attribute name to the nil value, and the
callback is still invoked with it. -/
theorem c10_absent_literal_skips_normalization (t : VB.Traverser) (fuel : Nat)
    (nav : Nav) (q ln n : Exp) (f : Nav → Option GoVal → Option TErr)
    (hadd : t.addByEqFilter = true) (hrf : q.rootOfFilter = true)
    (hmv : nav.cur.attr.multiValued = true) (htok : q.token = eqOp)
    (hql : q.l = some ln) (hlp : ln.isPath = true) (hlk : ln.token ≠ "")
    (hqn : q.nx = some n) (hnp : n.isPath = true) (hn2 : n.nx = none) (hnk : n.token ≠ "")
    (hright : ∀ rn, q.r = some rn → rn.isLiteral = false)
    (hcb : t.callbackUpdatedValue = some f) :
    VB.traverse t (fuel + 1) nav (some q) =
      ⟨nav,
       [⟨nav, some (.list [.obj [(n.token, t.valueByEqFilter.getD .null), (ln.token, .null)]])⟩],
       f nav (some (.list [.obj [(n.token, t.valueByEqFilter.getD .null), (ln.token, .null)]]))⟩ ∧
    (∀ nf2, VB.updateValueByEqFilter
        ⟨t.addByEqFilter, t.valueByEqFilter, t.callback, t.callbackUpdatedValue,
         t.elementStrategy, t.ev, nf2⟩ nav q = VB.updateValueByEqFilter t nav q) := by
  constructor
  · unfold VB.traverse
    rw [if_pos hrf, if_neg (by simp [hmv]), if_pos ⟨hadd, htok⟩]
    unfold VB.updateValueByEqFilter
    cases hqr : q.r with
    | none => simp [hql, hqn, hlp, hnp, hn2, hlk, hnk, hcb]
    | some rn =>
      have hrl := hright rn hqr
      simp [hql, hqn, hlp, hnp, hn2, hlk, hnk, hcb, hrl]
  · intro nf2
    unfold VB.updateValueByEqFilter
    cases hqr : q.r with
    | none => simp [hql, hqn, hlp, hnp, hn2, hlk, hnk]
    | some rn =>
      have hrl := hright rn hqr
      simp [hql, hqn, hlp, hnp, hn2, hlk, hnk, hrl]

/-- Witness for C10: emails[type eq] with no right operand; the composed
element carries a nil comparison value and the callback fires once. -/
theorem c10_absent_literal_skips_normalization_witness :
    qFilterEqNoRight.r = none ∧
    VB.traverse travB1 1 ⟨emailsProp, []⟩ (some qFilterEqNoRight) =
      ⟨⟨emailsProp, []⟩,
       [⟨⟨emailsProp, []⟩, some (.list [.obj [("value", .str "c@x"), ("type", .null)]])⟩],
       cbAddOk ⟨emailsProp, []⟩ (some (.list [.obj [("value", .str "c@x"), ("type", .null)]]))⟩ :=
  ⟨rfl,
   (c10_absent_literal_skips_normalization travB1 0 ⟨emailsProp, []⟩ qFilterEqNoRight
      qpType qpValue cbAddOk rfl rfl rfl rfl rfl rfl (by decide) rfl rfl rfl (by decide)
      (fun rn h => Option.noConfusion h) rfl).1⟩

/-- find? yields the first satisfying element: it occurs at an index all of
whose predecessors falsify the predicate. -/
theorem find?_first {α : Type} (p : α → Bool) :
    ∀ (l : List α) (a : α), l.find? p = some a →
      ∃ i : Nat, l[i]? = some a ∧ p a = true ∧
        ∀ (k : Nat) (b : α), k < i → l[k]? = some b → p b = false := by
  intro l
  induction l with
  | nil =>
    intro a h
    simp at h
  | cons x rest ih =>
    intro a h
    by_cases hx : p x = true
    · rw [List.find?_cons_of_pos _ hx] at h
      injection h with h2
      subst h2
      exact ⟨0, by simp, hx, fun k b hk _ => absurd hk (by omega)⟩
    · rw [List.find?_cons_of_neg _ (by simpa using hx)] at h
      obtain ⟨i, hi, hpa, hlt⟩ := ih a h
      refine ⟨i + 1, by simpa using hi, hpa, ?_⟩
      intro k b hk hkb
      cases k with
      | zero =>
        simp at hkb
        subst hkb
        simpa using hx
      | succ k2 =>
        exact hlt k2 b (by omega) (by simpa using hkb)

/-- With pairwise distinct node identities, an identity determines the
index within the children list. -/
theorem pid_index_inj {l : List Property} (h : (l.map Property.pid).Nodup)
    {i j : Nat} {c tp : Property} (hi : l[i]? = some tp) (hj : l[j]? = some c)
    (hpid : c.pid = tp.pid) : j = i := by
  have hm1 : (l.map Property.pid)[i]? = some tp.pid := by simp [hi]
  have hm2 : (l.map Property.pid)[j]? = some tp.pid := by simp [hj, hpid]
  have hjl : j < (l.map Property.pid).length := by
    by_contra hc
    rw [List.getElem?_eq_none (by omega)] at hm2
    exact Option.noConfusion hm2
  exact List.getElem?_inj hjl h (hm2.trans hm1.symm)

/-- C5: for a multi-valued node with pairwise distinct child identities,
the primary-or-first strategy selects exactly one child of a non-empty
collection: when a boolean sub-attribute carrying the primary annotation
exists and some child carries it with value true, exactly the first such
child (by identity) is selected; when no marker sub-attribute exists or no
child carries it true, exactly the child at index 0 is selected.  (On an
empty collection nothing is selected, since no index holds a child.) -/
theorem c5_primary_or_first (p : Property)
    (hnodup : (p.children.map Property.pid).Nodup) :
    (∀ pa, p.attr.subAttributes.find? isPrimaryMarker = some pa →
      ∀ tp, p.children.find? (hasTruePrimary pa.name) = some tp →
        ∃ i : Nat, p.children[i]? = some tp ∧ hasTruePrimary pa.name tp = true ∧
          (∀ (k : Nat) (b : Property), k < i → p.children[k]? = some b →
            hasTruePrimary pa.name b = false) ∧
          (∀ j c, p.children[j]? = some c →
            (primaryOrFirstStrategy p j c = true ↔ j = i))) ∧
    ((p.attr.subAttributes.find? isPrimaryMarker = none ∨
      (∃ pa, p.attr.subAttributes.find? isPrimaryMarker = some pa ∧
        p.children.find? (hasTruePrimary pa.name) = none)) →
      ∀ j c, p.children[j]? = some c →
        (primaryOrFirstStrategy p j c = true ↔ j = 0)) := by
  constructor
  · intro pa hpa tp htp
    obtain ⟨i, hi, hpt, hfirst⟩ := find?_first _ _ _ htp
    refine ⟨i, hi, hpt, hfirst, ?_⟩
    intro j c hj
    unfold primaryOrFirstStrategy
    simp only [hpa, htp, decide_eq_true_eq]
    constructor
    · intro hd
      exact pid_index_inj hnodup hi hj hd
    · intro hd
      subst hd
      rw [hi] at hj
      injection hj with h2
      subst h2
      rfl
  · intro hcase j c hj
    rcases hcase with hnone | ⟨pa, hpa, hchild⟩
    · unfold primaryOrFirstStrategy
      simp [hnone]
    · unfold primaryOrFirstStrategy
      simp [hpa, hchild]

/-- Witness for C5: with emails holding a non-primary and a primary
element, exactly the primary one (index 1) is selected; with no element
marked primary, exactly index 0 is selected. -/
theorem c5_primary_or_first_witness :
    (∃ i : Nat, emailsProp.children[i]? = some elemWork ∧
      hasTruePrimary attrPrimarySub.name elemWork = true ∧
      (∀ (k : Nat) (b : Property), k < i → emailsProp.children[k]? = some b →
        hasTruePrimary attrPrimarySub.name b = false) ∧
      (∀ j c, emailsProp.children[j]? = some c →
        (primaryOrFirstStrategy emailsProp j c = true ↔ j = i))) ∧
    (∀ j c, emailsNoPrimaryProp.children[j]? = some c →
      (primaryOrFirstStrategy emailsNoPrimaryProp j c = true ↔ j = 0)) :=
  ⟨(c5_primary_or_first emailsProp (by decide)).1 attrPrimarySub rfl elemWork rfl,
   (c5_primary_or_first emailsNoPrimaryProp (by decide)).2
     (.inr ⟨attrPrimarySub, rfl, rfl⟩)⟩

/-- When every child of the current node falsifies the filter, the
qualified-element loop of version B completes with no error and no events,
never invoking the recursive continuation. -/
theorem VB.qualLoop_all_false_vb (t : VB.Traverser) (tr : Nav → Option Exp → TRes) (filter : Exp) :
    ∀ (cs : List Property) (nav : Nav) (idx : Nat),
      nav.cur.attr.multiValued = true →
      cs = nav.cur.children.drop idx →
      (∀ (k : Nat) (c : Property), nav.cur.children[k]? = some c →
        t.ev c filter = .ok false) →
      VB.qualLoop t tr nav filter idx cs = ⟨nav, [], none⟩ := by
  intro cs
  induction cs with
  | nil =>
    intro nav idx _ _ _
    rfl
  | cons c rest ih =>
    intro nav idx hmv hcs hall
    have hget : nav.cur.children[idx]? = some c := by
      have h0 : (nav.cur.children.drop idx)[0]? = some c := by
        rw [← hcs]
        simp
      rw [List.getElem?_drop] at h0
      simpa using h0
    have hat : nav.at idx = .ok ⟨c, nav.cur :: nav.above⟩ := Nav.at_of_get hmv hget
    have hrest : rest = nav.cur.children.drop (idx + 1) := by
      have ht := List.tail_drop nav.cur.children idx
      rw [← hcs] at ht
      simpa using ht
    have hev := hall idx c hget
    unfold VB.qualLoop
    simp only [hat, hev, Nav.retract]
    exact ih nav (idx + 1) hmv hrest hall

/-- C7: in version B, a child whose filter evaluation returns false is
skipped without error and iteration continues with the remaining siblings;
and a filter-root traversal with no implicit-add fallback configured whose
filter matches no child completes successfully, with zero callback
invocations and no error. -/
theorem c7_false_skip_zero_match (t : VB.Traverser) (fuel : Nat) (nav : Nav) (q : Exp)
    (hadd : t.addByEqFilter = false) (hrf : q.rootOfFilter = true)
    (hmv : nav.cur.attr.multiValued = true)
    (hall : ∀ (k : Nat) (c : Property), nav.cur.children[k]? = some c →
      t.ev c q = .ok false) :
    VB.traverse t (fuel + 1) nav (some q) = ⟨nav, [], none⟩ ∧
    (∀ (tr : Nav → Option Exp → TRes) (idx : Nat) (c : Property) (rest : List Property)
      (nav1 : Nav), nav.at idx = .ok nav1 → t.ev nav1.cur q = .ok false →
      VB.qualLoop t tr nav q idx (c :: rest) = VB.qualLoop t tr nav q (idx + 1) rest) := by
  constructor
  · unfold VB.traverse
    rw [if_pos hrf, if_neg (by simp [hmv]), if_neg (by simp [hadd])]
    exact VB.qualLoop_all_false_vb t _ q nav.cur.children nav 0 hmv
      (List.drop_zero _).symm hall
  · intro tr idx c rest nav1 hat hev
    conv_lhs => unfold VB.qualLoop
    simp only [hat, hev]
    rw [Nav.retract_of_at hat]

/-- Witness for C7: a default version B traversal of emails with an
all-false filter evaluation succeeds with zero callback invocations. -/
theorem c7_false_skip_zero_match_witness :
    travB2.addByEqFilter = false ∧
    VB.traverse travB2 1 ⟨emailsProp, []⟩ (some qFilterEq) = ⟨⟨emailsProp, []⟩, [], none⟩ :=
  ⟨rfl,
   (c7_false_skip_zero_match travB2 0 ⟨emailsProp, []⟩ qFilterEq rfl rfl rfl
      (fun _ _ _ => rfl)).1⟩

/-- invokeCallback of version A records exactly one invocation, carrying
the value it was handed. -/
theorem VA.invokeCallback_events (t : VA.Traverser) (nav : Nav) (v : Option GoVal) :
    (t.invokeCallback nav v).events = [⟨nav, v⟩] := by
  unfold VA.Traverser.invokeCallback
  repeat' split
  all_goals rfl

/-- Events of a version A segment step carry no injected value when the
recursive continuation produces none. -/
theorem VA.traverseNext_events_clean (tr : Nav → Option Exp → TRes) (nav : Nav) (q : Exp)
    (htr : ∀ nav2, ∀ e ∈ (tr nav2 q.nx).events, e.value = none) :
    ∀ e ∈ (VA.traverseNext tr nav q).events, e.value = none := by
  intro e he
  unfold VA.traverseNext at he
  cases hd : nav.dot q.token with
  | error e2 =>
    rw [hd] at he
    simp at he
  | ok nav1 =>
    simp only [hd] at he
    exact htr nav1 e he

/-- Events of the version A selected-element loop carry no injected value
when the recursive continuation produces none. -/
theorem VA.selLoop_events_clean (tr : Nav → Option Exp → TRes)
    (sel : Nat → Property → Bool) (q : Exp)
    (htr : ∀ nav2, ∀ e ∈ (tr nav2 (some q)).events, e.value = none) :
    ∀ (cs : List Property) (nav : Nav) (idx : Nat),
      ∀ e ∈ (VA.selLoop tr sel nav q idx cs).events, e.value = none := by
  intro cs
  induction cs with
  | nil =>
    intro nav idx e he
    simp [VA.selLoop] at he
  | cons c rest ih =>
    intro nav idx e he
    unfold VA.selLoop at he
    split at he
    · cases hat : nav.at idx with
      | error e2 =>
        rw [hat] at he
        simp at he
      | ok nav1 =>
        simp only [hat] at he
        cases herr : (tr nav1 (some q)).err with
        | some e2 =>
          simp only [herr] at he
          exact htr nav1 e he
        | none =>
          simp only [herr] at he
          rw [List.mem_append] at he
          cases he with
          | inl h => exact htr nav1 e h
          | inr h => exact ih _ _ e h
    · exact ih nav (idx + 1) e he

/-- Events of the version A qualified-element loop carry no injected value
when the recursive continuation on the trailing chain produces none. -/
theorem VA.qualLoop_events_clean (t : VA.Traverser) (tr : Nav → Option Exp → TRes)
    (filter : Exp)
    (htr : ∀ nav2, ∀ e ∈ (tr nav2 filter.nx).events, e.value = none) :
    ∀ (cs : List Property) (nav : Nav) (idx : Nat) (isF : Bool),
      ∀ e ∈ ((VA.qualLoop t tr nav filter idx isF cs).1).events, e.value = none := by
  intro cs
  induction cs with
  | nil =>
    intro nav idx isF e he
    simp [VA.qualLoop] at he
  | cons c rest ih =>
    intro nav idx isF e he
    unfold VA.qualLoop at he
    cases hat : nav.at idx with
    | error e2 =>
      rw [hat] at he
      simp at he
    | ok nav1 =>
      simp only [hat] at he
      cases hev : t.ev nav1.cur filter with
      | error e2 =>
        rw [hev] at he
        simp at he
      | ok b =>
        cases b with
        | false =>
          simp only [hev] at he
          exact ih _ _ isF e he
        | true =>
          simp only [hev] at he
          cases herr : (tr nav1 filter.nx).err with
          | some e2 =>
            simp only [herr] at he
            exact htr nav1 e he
          | none =>
            simp only [herr] at he
            rw [List.mem_append] at he
            cases he with
            | inl h => exact htr nav1 e h
            | inr h => exact ih _ _ true e h

/-- A version A traversal over a filter-free query chain hands no injected
value to any callback: every recorded event carries none. -/
theorem VA.traverse_filterFree_clean (t : VA.Traverser) :
    ∀ (fuel : Nat) (nav : Nav) (oq : Option Exp), filterFreeChain oq = true →
      ∀ e ∈ (VA.traverse t fuel nav oq).events, e.value = none := by
  intro fuel
  induction fuel with
  | zero =>
    intro nav oq hff e he
    simp [VA.traverse] at he
  | succ fuel ih =>
    intro nav oq hff e he
    cases oq with
    | none =>
      rw [show VA.traverse t (fuel + 1) nav none = t.invokeCallback nav none from rfl,
          VA.invokeCallback_events] at he
      simp at he
      rw [he]
    | some q =>
      have hq : q.rootOfFilter = false ∧ filterFreeChain q.nx = true := by
        rw [filterFreeChain] at hff
        simpa using hff
      unfold VA.traverse at he
      rw [if_neg (by simp [hq.1])] at he
      split at he
      · exact VA.selLoop_events_clean _ _ q (fun nav2 => ih nav2 (some q) hff) _ nav 0 e he
      · exact VA.traverseNext_events_clean _ nav q (fun nav2 => ih nav2 q.nx hq.2) e he

/-- A version A traversal positioned on a non-multi-valued node with a
filter-root query fails immediately (or exhausts fuel), producing no
events and leaving the navigator in place. -/
theorem VA.traverse_filter_singular (t : VA.Traverser) (fuel : Nat) (nav : Nav) (q : Exp)
    (hrf : q.rootOfFilter = true) (hmv : nav.cur.attr.multiValued = false) :
    ∃ e2, VA.traverse t fuel nav (some q) = ⟨nav, [], some e2⟩ := by
  cases fuel with
  | zero => exact ⟨.fuelOut, rfl⟩
  | succ fuel =>
    refine ⟨.invalidFilter "filter applied to singular attribute", ?_⟩
    unfold VA.traverse
    rw [if_pos hrf, if_pos (by simp [hmv])]

/-- The version A selected-element loop records no events when every
selected descent fails at once (each child refuses the recursive step with
an immediate error and no events). -/
theorem VA.selLoop_events_nil (tr : Nav → Option Exp → TRes)
    (sel : Nat → Property → Bool) (q : Exp)
    (htr : ∀ nav2 : Nav, nav2.cur.attr.multiValued = false →
      ∃ e2, tr nav2 (some q) = ⟨nav2, [], some e2⟩) :
    ∀ (cs : List Property) (nav : Nav) (idx : Nat),
      (∀ c ∈ nav.cur.children, c.attr.multiValued = false) →
      (VA.selLoop tr sel nav q idx cs).events = [] := by
  intro cs
  induction cs with
  | nil =>
    intro nav idx _
    rfl
  | cons c rest ih =>
    intro nav idx helem
    unfold VA.selLoop
    split
    · cases hat : nav.at idx with
      | error e2 => simp
      | ok nav1 =>
        have hmem : nav1.cur ∈ nav.cur.children := List.getElem?_mem (Nav.at_ok_get hat).1
        obtain ⟨e2, he2⟩ := htr nav1 (helem _ hmem)
        simp [he2]
    · exact ih nav (idx + 1) helem

/-- When every child of the current node falsifies the filter, the version
A qualified loop completes with no error, no events and an unchanged
isFound flag. -/
theorem VA.qualLoop_all_false (t : VA.Traverser) (tr : Nav → Option Exp → TRes) (filter : Exp) :
    ∀ (cs : List Property) (nav : Nav) (idx : Nat) (isF : Bool),
      nav.cur.attr.multiValued = true →
      cs = nav.cur.children.drop idx →
      (∀ (k : Nat) (c : Property), nav.cur.children[k]? = some c →
        t.ev c filter = .ok false) →
      VA.qualLoop t tr nav filter idx isF cs = (⟨nav, [], none⟩, isF) := by
  intro cs
  induction cs with
  | nil =>
    intro nav idx isF _ _ _
    rfl
  | cons c rest ih =>
    intro nav idx isF hmv hcs hall
    have hget : nav.cur.children[idx]? = some c := by
      have h0 : (nav.cur.children.drop idx)[0]? = some c := by
        rw [← hcs]
        simp
      rw [List.getElem?_drop] at h0
      simpa using h0
    have hat : nav.at idx = .ok ⟨c, nav.cur :: nav.above⟩ := Nav.at_of_get hmv hget
    have hrest : rest = nav.cur.children.drop (idx + 1) := by
      have ht := List.tail_drop nav.cur.children idx
      rw [← hcs] at ht
      simpa using ht
    have hev := hall idx c hget
    unfold VA.qualLoop
    simp only [hat, hev, Nav.retract]
    exact ih nav (idx + 1) isF hmv hrest hall

/-- The isFound flag of the version A qualified loop never falls back from
true. -/
theorem VA.qualLoop_isFound_mono (t : VA.Traverser) (tr : Nav → Option Exp → TRes)
    (filter : Exp) :
    ∀ (cs : List Property) (nav : Nav) (idx : Nat),
      ((VA.qualLoop t tr nav filter idx true cs).2) = true := by
  intro cs
  induction cs with
  | nil =>
    intro nav idx
    rfl
  | cons c rest ih =>
    intro nav idx
    unfold VA.qualLoop
    cases hat : nav.at idx with
    | error e2 => simp
    | ok nav1 =>
      simp only [hat]
      cases hev : t.ev nav1.cur filter with
      | error e2 => simp
      | ok b =>
        cases b with
        | false =>
          simp only []
          exact ih _ _
        | true =>
          simp only []
          cases herr : (tr nav1 filter.nx).err with
          | some e2 => simp [herr]
          | none => simp [herr, ih]

/-- A version A qualified pass that ends without error and without setting
isFound evaluated the filter to false on every child from its starting
index on. -/
theorem VA.qualLoop_not_found (t : VA.Traverser) (tr : Nav → Option Exp → TRes)
    (filter : Exp) :
    ∀ (cs : List Property) (nav : Nav) (idx : Nat) (isF : Bool),
      nav.cur.attr.multiValued = true →
      cs = nav.cur.children.drop idx →
      ((VA.qualLoop t tr nav filter idx isF cs).1).err = none →
      ((VA.qualLoop t tr nav filter idx isF cs).2) = false →
      ∀ (k : Nat) (c : Property), idx ≤ k → nav.cur.children[k]? = some c →
        t.ev c filter = .ok false := by
  intro cs
  induction cs with
  | nil =>
    intro nav idx isF hmv hcs herr hfound k c hk hkc
    exfalso
    have hlen : nav.cur.children.length ≤ idx := List.drop_eq_nil_iff.mp hcs.symm
    have hklen : k < nav.cur.children.length := by
      by_contra hc2
      rw [List.getElem?_eq_none (by omega)] at hkc
      exact Option.noConfusion hkc
    omega
  | cons c rest ih =>
    intro nav idx isF hmv hcs herr hfound k c2 hk hkc
    have hget : nav.cur.children[idx]? = some c := by
      have h0 : (nav.cur.children.drop idx)[0]? = some c := by
        rw [← hcs]
        simp
      rw [List.getElem?_drop] at h0
      simpa using h0
    have hat : nav.at idx = .ok ⟨c, nav.cur :: nav.above⟩ := Nav.at_of_get hmv hget
    have hrest : rest = nav.cur.children.drop (idx + 1) := by
      have ht := List.tail_drop nav.cur.children idx
      rw [← hcs] at ht
      simpa using ht
    unfold VA.qualLoop at herr hfound
    simp only [hat] at herr hfound
    cases hev : t.ev c filter with
    | error e2 =>
      rw [hev] at herr
      simp at herr
    | ok b =>
      cases b with
      | true =>
        simp only [hev] at herr hfound
        cases hrerr : (tr ⟨c, nav.cur :: nav.above⟩ filter.nx).err with
        | some e2 =>
          rw [hrerr] at herr
          simp at herr
        | none =>
          simp only [hrerr] at hfound
          rw [VA.qualLoop_isFound_mono t tr filter rest _ _] at hfound
          exact Bool.noConfusion hfound
      | false =>
        simp only [hev, Nav.retract] at herr hfound
        rcases Nat.lt_or_ge idx k with hlt | hge
        · exact ih nav (idx + 1) isF hmv hrest herr hfound k c2 (by omega) hkc
        · have hkidx : k = idx := by omega
          subst hkidx
          rw [hkc] at hget
          injection hget with h2
          subst h2
          exact hev

/-- One-step unfolding of version A traverse at a filter root on a
multi-valued node. -/
theorem VA.traverse_filter_step (t : VA.Traverser) (fuel : Nat) (nav : Nav) (q : Exp)
    (hrf : q.rootOfFilter = true) (hmv : nav.cur.attr.multiValued = true) :
    VA.traverse t (fuel + 1) nav (some q) =
      (let p := VA.traverseQualifiedElements t (VA.traverse t fuel) nav q
       match p.1.err with
       | some _ => p.1
       | none =>
         if ¬p.2 ∧ t.addByEqual ∧ q.token = eqOp then
           if (q.nx.bind Exp.nx).isSome then
             ⟨p.1.nav, p.1.events,
              some (.invalidFilter "only a single Eq filter is applicable")⟩
           else
             let keyValue := match q.nx with
               | some n => n.token
               | none => ""
             let filterKey := match q.l with
               | some ln => ln.token
               | none => ""
             let filterValue := match q.r with
               | some rn => rn.token
               | none => ""
             let rc := t.invokeCallback p.1.nav
               (some (.list [.obj [(keyValue, t.value.getD .null), (filterKey, .str filterValue)]]))
             ⟨rc.nav, p.1.events ++ rc.events, rc.err⟩
         else
           if p.1.nav.cur.attr.multiValued then
             let r2 := VA.traverseSelectedElements t (VA.traverse t fuel) p.1.nav q
             ⟨r2.nav, p.1.events ++ r2.events, r2.err⟩
           else
             let r2 := VA.traverseNext (VA.traverse t fuel) p.1.nav q
             ⟨r2.nav, p.1.events ++ r2.events, r2.err⟩) := by
  unfold VA.traverse
  rw [if_pos hrf, if_neg (by simp [hmv])]

/-- C1: version A add-by-equality traversal at a multi-valued node holding
a single Eq filter (with a filter-free trailing chain and singular
elements): (a) a synthesized value is handed to the callback only if no
existing child satisfies the equality filter; (b) when no child satisfies
it and the trailing chain is at most one node, exactly the synthesized
element is handed to the callback; (c) when some child satisfies it, the
events are exactly those of the qualified pass into the matching children,
and no synthesized element is composed. -/
theorem c1_add_only_when_no_match (t : VA.Traverser) (fuel : Nat) (nav : Nav) (q : Exp)
    (hadd : t.addByEqual = true) (hrf : q.rootOfFilter = true) (htok : q.token = eqOp)
    (hmv : nav.cur.attr.multiValued = true)
    (hchain : filterFreeChain q.nx = true)
    (helem : ∀ c ∈ nav.cur.children, c.attr.multiValued = false) :
    ((∃ e ∈ (VA.traverse t (fuel + 1) nav (some q)).events, e.value.isSome = true) →
      ∀ (k : Nat) (c : Property), nav.cur.children[k]? = some c → t.ev c q = .ok false) ∧
    ((∀ (k : Nat) (c : Property), nav.cur.children[k]? = some c → t.ev c q = .ok false) →
      (q.nx.bind Exp.nx).isSome = false →
      VA.traverse t (fuel + 1) nav (some q) =
        t.invokeCallback nav (some (.list [.obj
          [((match q.nx with | some n => n.token | none => ""), t.value.getD .null),
           ((match q.l with | some ln => ln.token | none => ""),
            .str (match q.r with | some rn => rn.token | none => ""))]]))) ∧
    ((∃ (k : Nat) (c : Property), nav.cur.children[k]? = some c ∧ t.ev c q = .ok true) →
      (VA.traverse t (fuel + 1) nav (some q)).events =
        ((VA.traverseQualifiedElements t (VA.traverse t fuel) nav q).1).events ∧
      ∀ e ∈ (VA.traverse t (fuel + 1) nav (some q)).events, e.value = none) := by
  have htrclean : ∀ nav2, ∀ e ∈ (VA.traverse t fuel nav2 q.nx).events, e.value = none :=
    fun nav2 => VA.traverse_filterFree_clean t fuel nav2 q.nx hchain
  have hqclean : ∀ e ∈ ((VA.traverseQualifiedElements t (VA.traverse t fuel) nav q).1).events,
      e.value = none :=
    VA.qualLoop_events_clean t _ q htrclean nav.cur.children nav 0 false
  have hp1nav : ((VA.traverseQualifiedElements t (VA.traverse t fuel) nav q).1).nav = nav :=
    VA.traverseQualifiedElements_nav t _ (VA.traverse_nav t fuel) nav q
  have hsel0 : (VA.traverseSelectedElements t (VA.traverse t fuel) nav q).events = [] :=
    VA.selLoop_events_nil _ _ q
      (fun nav2 h => VA.traverse_filter_singular t fuel nav2 q hrf h)
      nav.cur.children nav 0 helem
  have hstep := VA.traverse_filter_step t fuel nav q hrf hmv
  have hfallthrough :
      ((VA.traverseQualifiedElements t (VA.traverse t fuel) nav q).1).err = none →
      ((VA.traverseQualifiedElements t (VA.traverse t fuel) nav q).2) = true →
      (VA.traverse t (fuel + 1) nav (some q)).events =
        ((VA.traverseQualifiedElements t (VA.traverse t fuel) nav q).1).events := by
    intro ho hf
    rw [hstep]
    simp only [ho, hf, hp1nav]
    rw [if_neg (by simp)]
    rw [if_pos hmv]
    simp [hsel0]
  refine ⟨?_, ?_, ?_⟩
  · intro hex k c hk
    rcases hex with ⟨e, hee, hev⟩
    by_cases hfound : ((VA.traverseQualifiedElements t (VA.traverse t fuel) nav q).2) = false
    · cases ho : ((VA.traverseQualifiedElements t (VA.traverse t fuel) nav q).1).err with
      | none =>
        exact VA.qualLoop_not_found t _ q nav.cur.children nav 0 false hmv
          (List.drop_zero _).symm ho hfound k c (Nat.zero_le k) hk
      | some e2 =>
        exfalso
        rw [hstep] at hee
        simp only [ho] at hee
        rw [hqclean e hee] at hev
        exact Bool.noConfusion hev
    · exfalso
      have hf : ((VA.traverseQualifiedElements t (VA.traverse t fuel) nav q).2) = true := by
        cases h2 : ((VA.traverseQualifiedElements t (VA.traverse t fuel) nav q).2) with
        | false => exact absurd h2 hfound
        | true => rfl
      cases ho : ((VA.traverseQualifiedElements t (VA.traverse t fuel) nav q).1).err with
      | some e2 =>
        rw [hstep] at hee
        simp only [ho] at hee
        rw [hqclean e hee] at hev
        exact Bool.noConfusion hev
      | none =>
        rw [hfallthrough ho hf] at hee
        rw [hqclean e hee] at hev
        exact Bool.noConfusion hev
  · intro hall hch
    have hp : VA.traverseQualifiedElements t (VA.traverse t fuel) nav q =
        (⟨nav, [], none⟩, false) :=
      VA.qualLoop_all_false t _ q nav.cur.children nav 0 false hmv
        (List.drop_zero _).symm hall
    rw [hstep, hp]
    simp [hadd, htok, hch]
  · intro hex
    cases ho : ((VA.traverseQualifiedElements t (VA.traverse t fuel) nav q).1).err with
    | some e2 =>
      constructor
      · rw [hstep]
        simp only [ho]
      · intro e hee
        rw [hstep] at hee
        simp only [ho] at hee
        exact hqclean e hee
    | none =>
      have hf : ((VA.traverseQualifiedElements t (VA.traverse t fuel) nav q).2) = true := by
        cases h2 : ((VA.traverseQualifiedElements t (VA.traverse t fuel) nav q).2) with
        | true => rfl
        | false =>
          exfalso
          rcases hex with ⟨k, c, hk, hev⟩
          have hcontra := VA.qualLoop_not_found t _ q nav.cur.children nav 0 false hmv
            (List.drop_zero _).symm ho h2 k c (Nat.zero_le k) hk
          rw [hev] at hcontra
          injection hcontra with hb
          exact Bool.noConfusion hb
      constructor
      · exact hfallthrough ho hf
      · intro e hee
        rw [hfallthrough ho hf] at hee
        exact hqclean e hee

/-- Witness for C1: an add-by-equal traversal of emails[type eq "work"]
.value over an evaluator matching no element composes exactly the element
mapping value to the new value and type to work, and hands it to the
callback. -/
theorem c1_add_only_when_no_match_witness :
    travA1.addByEqual = true ∧
    filterFreeChain qFilterEq.nx = true ∧
    (∀ c ∈ emailsProp.children, c.attr.multiValued = false) ∧
    VA.traverse travA1 1 ⟨emailsProp, []⟩ (some qFilterEq) =
      travA1.invokeCallback ⟨emailsProp, []⟩
        (some (.list [.obj [("value", .str "c@x"), ("type", .str "work")]])) :=
  ⟨rfl,
   by simp [filterFreeChain, qFilterEq, qpValue, qpType, qlWork, Exp.nx, Exp.rootOfFilter],
   by decide,
   (c1_add_only_when_no_match travA1 0 ⟨emailsProp, []⟩ qFilterEq rfl rfl rfl rfl
      (by simp [filterFreeChain, qFilterEq, qpValue, qpType, qlWork, Exp.nx, Exp.rootOfFilter])
      (by decide)).2.1 (fun _ _ _ => rfl) rfl⟩
